import Mathlib

/-!
Formal model of the multi-agent orchestration and candidate-evaluation
subsystem (hooks/multi-agent): the orchestration engine
(`orchestration_engine.py`), the feature and design evaluators
(`feat_evaluator.py`, `design_evaluator.py`), the agent registry's health
bookkeeping (`agent_registry.py`), and the feature workflow's selection
phase (`feat_workflow.py`).

Modelling conventions:
* Python floats are modelled as exact rationals (ℚ).
* Python strings are modelled as Lean `String`; all text processing is
  implemented by structural recursion over `String.data` (`List Char`) so
  that every definition evaluates by kernel reduction.  Python's `\s` and
  `str.strip()` whitespace classes are modelled by `Char.isWhitespace`,
  `str.lower()` by ASCII `Char.toLower`.
* Python `set` values are modelled by first-occurrence-deduplicated lists;
  only their cardinality and membership are relevant to the scores.
* `list.sort(key=..., reverse=True)` is a stable descending sort by key;
  it is modelled by the stable `List.insertionSort` with the reversed key
  order, which agrees with every stable sort for a total key order.
* Exceptions are modelled as `Except String`; interactions of one sandbox
  with the outside world (process spawn, timeout, exit status, files the
  worker wrote) are modelled by an explicit `TaskEnv` record describing the
  behaviour of the external world for that task.
-/

/-! ## Character and string helpers (structural, kernel-evaluable) -/

/-- Substring containment, Python's `needle in hay`. -/
def charsContain : List Char → List Char → Bool
  | hay, needle =>
    needle.isPrefixOf hay ||
      match hay with
      | [] => false
      | _ :: t => charsContain t needle

/-- Python `needle in hay` on strings. -/
def str_contains (hay needle : String) : Bool :=
  charsContain hay.data needle.data

/-- Python `any(k in hay for k in needles)`. -/
def containsAny (hay : String) (needles : List String) : Bool :=
  needles.any (fun n => str_contains hay n)

/-- Python `sum(1 for k in needles if k in hay)`. -/
def countContained (hay : String) (needles : List String) : Nat :=
  needles.countP (fun n => str_contains hay n)

/-- Python `str.lower()` (ASCII). -/
def strLower (s : String) : String :=
  String.mk (s.data.map Char.toLower)

/-- Python `str.upper()` (ASCII). -/
def strUpper (s : String) : String :=
  String.mk (s.data.map Char.toUpper)

/-- Python `str.strip()` on a character list. -/
def trimChars (cs : List Char) : List Char :=
  ((cs.dropWhile Char.isWhitespace).reverse.dropWhile Char.isWhitespace).reverse

/-- Python `str.strip()`. -/
def strStrip (s : String) : String :=
  String.mk (trimChars s.data)

/-- Split a character list at every occurrence of one separator character
(Python `str.split(sep)` for a one-character separator). -/
def splitOnChar (sep : Char) : List Char → List (List Char)
  | [] => [[]]
  | c :: cs =>
    let rest := splitOnChar sep cs
    if c = sep then [] :: rest
    else
      match rest with
      | [] => [[c]]
      | r :: rs => (c :: r) :: rs

/-- The lines of a string, Python `content.split('\n')`. -/
def strLines (s : String) : List (List Char) :=
  splitOnChar '\n' s.data

/-- Python `content.split('.')`. -/
def splitDots (s : String) : List (List Char) :=
  splitOnChar '.' s.data

/-- Number of maximal non-whitespace runs in a character list
(`len(s.split())` in Python). -/
def wordCountAux : List Char → Bool → Nat
  | [], _ => 0
  | c :: cs, inWord =>
    if c.isWhitespace then wordCountAux cs false
    else (if inWord then 0 else 1) + wordCountAux cs true

/-- Python `len(s.split())`. -/
def wordsOf (cs : List Char) : Nat :=
  wordCountAux cs false

/-- First-occurrence deduplication with an accumulator of already-seen
elements; used to model Python `set(...)` where only cardinality and
membership matter. -/
def dedupAcc (seen : List String) : List String → List String
  | [] => []
  | x :: xs =>
    if seen.contains x then dedupAcc seen xs
    else x :: dedupAcc (x :: seen) xs

/-- First-occurrence deduplication (the model of `set(l)`). -/
def dedupFirst (l : List String) : List String :=
  dedupAcc [] l

/-- Python `max(0.0, min(1.0, x))`, the clamp every criterion applies. -/
def clamp01 (x : ℚ) : ℚ :=
  max 0 (min 1 x)

/-- Python `l[-n:]`: the last `n` elements of a list. -/
def lastN (n : Nat) (l : List String) : List String :=
  l.drop (l.length - n)

/-! ## Markdown header extraction (`FeatEvaluator.extract_section_structure`)

The source scans markdown content with the multiline regex
`^(#+)\s+(.+)$` (`re.finditer`).  Because `\s` also matches a newline, a
run of hashes whose line ends in whitespace can capture the next non-blank
line as its title; `headerMatch` reproduces the regex engine's greedy
matching with backtracking at one match position, and `scanHeaders` the
`finditer` scan (a match can only start at a line start, and scanning
resumes at the end of the previous match). -/

/-- One attempted match of `^(#+)\s+(.+)$` at a line start.  Returns the
stripped title (group 2, `.strip()`ed) together with the number of
consumed characters minus one. -/
def headerMatch (cs : List Char) : Option (List Char × Nat) :=
  let hashes := cs.takeWhile (· = '#')
  if hashes.length = 0 then none
  else
    let after := cs.drop hashes.length
    let w := after.takeWhile Char.isWhitespace
    if w.length = 0 then none
    else
      let restW := after.drop w.length
      match restW with
      | [] =>
        -- `\s+` runs to the end of the string; the engine backtracks so that
        -- `.+$` can still match a non-newline whitespace character.
        let t := (w.reverse.takeWhile (· = '\n')).length
        if w.length - t ≥ 2 then some ([], hashes.length + w.length - t - 1)
        else none
      | _ =>
        let title := restW.takeWhile (· ≠ '\n')
        some (trimChars title, hashes.length + w.length + title.length - 1)

/-- The `re.finditer(r'^(#+)\s+(.+)$', content, re.MULTILINE)` scan:
collect the group-2 titles of all non-overlapping matches. -/
def scanHeaders (cs : List Char) (atStart : Bool) : List (List Char) :=
  match cs with
  | [] => []
  | c :: rest =>
    if atStart ∧ c = '#' then
      match headerMatch (c :: rest) with
      | some (title, k) => title :: scanHeaders ((c :: rest).drop (k + 1)) false
      | none => scanHeaders rest false
    else
      scanHeaders rest (c = '\n')
termination_by cs.length
decreasing_by
  · simp [List.length_drop]; omega
  · simp
  · simp

/-- Normalisation applied to one extracted title:
`re.sub(r'^[\d.]+\s*', '', title).lower().strip()`. -/
def normalize_section (title : List Char) : List Char :=
  let pre := title.takeWhile (fun c => c.isDigit || c = '.')
  let rest :=
    if pre.length = 0 then title
    else (title.drop pre.length).dropWhile Char.isWhitespace
  trimChars (rest.map Char.toLower)

/-- Model of `FeatEvaluator.extract_section_structure`: the normalised section
headers of a markdown document, in order. -/
def extract_section_structure (content : String) : List String :=
  (scanHeaders content.data true).map (fun t => String.mk (normalize_section t))

/-! ## Structural validation (`FeatEvaluator.validate_structure`) -/

/-- Results of structural validation (`StructuralValidation` dataclass). -/
structure StructuralValidation where
  is_valid : Bool
  expected_sections : List String
  found_sections : List String
  missing_sections : List String
  extra_sections : List String
  structure_score : ℚ
deriving DecidableEq, Repr

/-- Model of `FeatEvaluator.validate_structure`. -/
def validate_structure (feat_content : String) (expected_sections : List String) :
    StructuralValidation :=
  let found_sections := extract_section_structure feat_content
  let missing_sections :=
    (dedupFirst expected_sections).filter (fun s => !(found_sections.contains s))
  let extra_sections :=
    (dedupFirst found_sections).filter (fun s => !(expected_sections.contains s))
  if expected_sections.isEmpty then
    { is_valid := true, expected_sections, found_sections,
      missing_sections, extra_sections, structure_score := 1 }
  else if missing_sections.isEmpty ∧ extra_sections.isEmpty then
    { is_valid := true, expected_sections, found_sections,
      missing_sections, extra_sections, structure_score := 1 }
  else
    let missing_penalty : ℚ := missing_sections.length * 0.3
    let extra_penalty : ℚ := extra_sections.length * 0.1
    let total_penalty := missing_penalty + extra_penalty
    { is_valid := missing_sections.length = 0, expected_sections, found_sections,
      missing_sections, extra_sections,
      structure_score := max 0 (1 - total_penalty / expected_sections.length) }

/-! ## Line-anchored regex counts used by the clarity/documentation criteria

`len(re.findall(r'^#+\s+', content, re.MULTILINE))` counts one match per
line that starts with a run of hashes followed by a whitespace character;
because `\s` matches the terminating newline, a line consisting only of
hashes also matches unless it is the final line of the string.  The same
newline effect applies to the list-marker pattern
`^[\s]*[-*+]\s+|^\s*\d+\.\s+`. -/

/-- Does a line match `^#+\s+` (with `isLast` telling whether a newline
follows the line)? -/
def isHeaderMarkLine (l : List Char) (isLast : Bool) : Bool :=
  match l with
  | [] => false
  | c :: _ =>
    (c == '#') &&
      match l.dropWhile (· = '#') with
      | [] => !isLast
      | w :: _ => w.isWhitespace

/-- Does a line match `^[\s]*[-*+]\s+|^\s*\d+\.\s+`? -/
def isListMarkLine (l : List Char) (isLast : Bool) : Bool :=
  let t := l.dropWhile Char.isWhitespace
  match t with
  | [] => false
  | c :: rest =>
    ((c == '-' || c == '*' || c == '+') &&
      (match rest with
       | [] => !isLast
       | w :: _ => w.isWhitespace)) ||
    (c.isDigit &&
      (match t.drop (t.takeWhile Char.isDigit).length with
       | '.' :: rest2 =>
         (match rest2 with
          | [] => !isLast
          | w :: _ => w.isWhitespace)
       | _ => false))

/-- Count the lines of a list satisfying a predicate that also receives an
is-final-line flag. -/
def countWithLast (p : List Char → Bool → Bool) : List (List Char) → Nat
  | [] => 0
  | [l] => if p l true then 1 else 0
  | l :: l' :: ls => (if p l false then 1 else 0) + countWithLast p (l' :: ls)

/-- Model of `len(re.findall(r'^#+\s+', content, re.MULTILINE))`. -/
def header_marker_count (content : String) : Nat :=
  countWithLast isHeaderMarkLine (strLines content)

/-- Model of `len(re.findall(r'^[\s]*[-*+]\s+|^\s*\d+\.\s+', content, re.MULTILINE))`. -/
def list_marker_count (content : String) : Nat :=
  countWithLast isListMarkLine (strLines content)

/-! ## Feature evaluator criteria (`FeatEvaluator.evaluate_*`) -/

/-- Result of one criterion function: `(score, strengths, weaknesses)`. -/
structure CritResult where
  score : ℚ
  strengths : List String
  weaknesses : List String
deriving DecidableEq, Repr

/-- Model of `FeatEvaluator.evaluate_implementation_detail`. -/
def evaluate_implementation_detail (feat_content : String) : CritResult :=
  let content_lower := strLower feat_content
  let detail_indicators :=
    ["function", "method", "class", "struct", "interface",
     "algorithm", "data structure", "parameter", "return",
     "input", "output", "validation", "error handling"]
  let detail_count := countContained content_lower detail_indicators
  let detail_score : ℚ := min 1 ((detail_count : ℚ) / (detail_indicators.length : ℚ))
  let p1 : ℚ × List String × List String :=
    if detail_score ≥ 0.7 then (0, ["Rich implementation details and specificity"], [])
    else if detail_score ≥ 0.4 then (0, ["Good level of implementation detail"], [])
    else (0, [], ["Lacks specific implementation details"])
  let p2 : ℚ × List String × List String :=
    if containsAny feat_content ["```", "```python", "```go", "```rust"] then
      (0.2, ["Includes code examples"], [])
    else if containsAny content_lower ["pseudocode", "example", "sample"] then
      (0.1, ["Provides implementation examples"], [])
    else (0, [], ["No code examples or pseudocode"])
  let p3 : ℚ × List String × List String :=
    if containsAny content_lower ["flow", "process", "step", "sequence", "workflow"] then
      (0.2, ["Describes implementation flow and processes"], [])
    else (0, [], ["Limited description of implementation flow"])
  let p4 : ℚ × List String × List String :=
    if containsAny content_lower ["edge case", "error", "exception", "failure"] then
      (0.1, ["Addresses edge cases and error handling"], [])
    else (0, [], ["Missing edge case and error handling discussion"])
  let p5 : ℚ × List String × List String :=
    if containsAny content_lower ["performance", "optimization", "efficiency"] then
      (0.1, ["Includes performance considerations"], [])
    else (0, [], [])
  { score := clamp01 (detail_score * 0.4 + p2.1 + p3.1 + p4.1 + p5.1),
    strengths := p1.2.1 ++ p2.2.1 ++ p3.2.1 ++ p4.2.1 ++ p5.2.1,
    weaknesses := p1.2.2 ++ p2.2.2 ++ p3.2.2 ++ p4.2.2 ++ p5.2.2 }

/-- The `language_patterns` table of `FeatEvaluator.evaluate_language_specificity`:
`(positive, negative, practices)` for the languages it knows. -/
def feat_language_patterns (lang : String) :
    Option (List String × List String × List String) :=
  if lang = "go" then
    some (["interface", "struct", "goroutine", "channel", "defer", "panic", "recover"],
          ["class", "inheritance", "exception"],
          ["composition", "error handling", "concurrency"])
  else if lang = "python" then
    some (["class", "decorator", "generator", "context manager", "list comprehension"],
          ["goto", "multiple inheritance abuse"],
          ["pythonic", "pep 8", "duck typing", "zen of python"])
  else if lang = "rust" then
    some (["ownership", "borrowing", "trait", "enum", "match", "result", "option"],
          ["garbage collection", "null pointer"],
          ["memory safety", "zero-cost abstraction", "fearless concurrency"])
  else none

/-- Model of `FeatEvaluator.evaluate_language_specificity`.  Note that the
no-language early return is not clamped in the source (its value is 0.5 or
0.7 anyway). -/
def evaluate_language_specificity (feat_content : String) (language : Option String) :
    CritResult :=
  let content_lower := strLower feat_content
  match language with
  | none =>
    if containsAny content_lower ["language-specific", "idiom", "convention"] then
      { score := 0.5 + 0.2, strengths := ["Mentions language-specific considerations"],
        weaknesses := [] }
    else { score := 0.5, strengths := [], weaknesses := [] }
  | some language =>
    match feat_language_patterns (strLower language) with
    | some (positive, negative, practices) =>
      let positive_matches := countContained content_lower positive
      let p1 : ℚ × List String × List String :=
        if (positive_matches : ℚ) ≥ (positive.length : ℚ) * 0.5 then
          (0.3, ["Strong use of " ++ language ++ "-specific patterns"], [])
        else if positive_matches > 0 then
          (0.1, ["Some " ++ language ++ "-specific patterns used"], [])
        else (-0.2, [], ["Limited use of " ++ language ++ "-specific patterns"])
      let negative_matches := countContained content_lower negative
      let p2 : ℚ × List String × List String :=
        if negative_matches > 0 then (-0.2, [], ["Contains " ++ language ++ " anti-patterns"])
        else (0, [], [])
      let practice_matches := countContained content_lower practices
      let p3 : ℚ × List String × List String :=
        if practice_matches > 0 then
          (0.2, ["Incorporates " ++ language ++ " best practices"], [])
        else (0, [], [])
      { score := clamp01 (0.5 + p1.1 + p2.1 + p3.1),
        strengths := p1.2.1 ++ p2.2.1 ++ p3.2.1,
        weaknesses := p1.2.2 ++ p2.2.2 ++ p3.2.2 }
    | none =>
      if str_contains content_lower language then
        { score := clamp01 (0.5 + 0.1),
          strengths := ["Mentions " ++ language ++ " in context"], weaknesses := [] }
      else { score := clamp01 0.5, strengths := [], weaknesses := [] }

/-- Model of `FeatEvaluator.evaluate_technical_accuracy`. -/
def evaluate_technical_accuracy (feat_content : String) : CritResult :=
  let content_lower := strLower feat_content
  let tech_terms :=
    ["algorithm", "data structure", "complexity", "performance",
     "memory", "cpu", "network", "database", "api", "protocol"]
  let tech_mentions := countContained content_lower tech_terms
  let p1 : ℚ × List String × List String :=
    if tech_mentions ≥ 5 then (0.3, ["Strong technical depth"], [])
    else if tech_mentions ≥ 3 then (0.1, ["Good technical coverage"], [])
    else (-0.1, [], ["Limited technical depth"])
  let p2 : ℚ × List String × List String :=
    if containsAny content_lower ["mvc", "mvp", "singleton", "factory", "observer", "strategy"] then
      (0.2, ["Uses established architecture patterns"], [])
    else (0, [], [])
  let p3 : ℚ × List String × List String :=
    if containsAny content_lower
        ["security", "authentication", "authorization", "encryption", "validation"] then
      (0.1, ["Addresses security considerations"], [])
    else (0, [], ["Limited security discussion"])
  let p4 : ℚ × List String × List String :=
    if containsAny content_lower ["scalable", "maintainable", "extensible"] then
      (0.1, ["Considers scalability and maintainability"], [])
    else (0, [], [])
  let p5 : ℚ × List String × List String :=
    if containsAny content_lower ["test", "testing", "unit test", "integration"] then
      (0.2, ["Includes testing approach"], [])
    else (-0.1, [], ["No testing methodology specified"])
  { score := clamp01 (0.5 + p1.1 + p2.1 + p3.1 + p4.1 + p5.1),
    strengths := p1.2.1 ++ p2.2.1 ++ p3.2.1 ++ p4.2.1 ++ p5.2.1,
    weaknesses := p1.2.2 ++ p2.2.2 ++ p3.2.2 ++ p4.2.2 ++ p5.2.2 }

/-- Model of `FeatEvaluator.evaluate_clarity`. -/
def evaluate_clarity (feat_content : String) : CritResult :=
  let header_count := header_marker_count feat_content
  let p1 : ℚ × List String × List String :=
    if header_count ≥ 3 then (0.2, ["Well-structured document"], [])
    else if header_count ≥ 1 then (0.1, ["Basic document structure"], [])
    else (-0.2, [], ["Poor document structure"])
  let list_count := list_marker_count feat_content
  let p2 : ℚ × List String × List String :=
    if list_count ≥ 5 then (0.1, ["Good use of lists for organization"], [])
    else (0, [], [])
  let p3 : ℚ × List String × List String :=
    if containsAny (strLower feat_content)
        ["specifically", "namely", "for example", "in other words", "that is"] then
      (0.1, ["Uses clear explanatory language"], [])
    else (0, [], [])
  let sentences := ((splitDots feat_content).map trimChars).filter (· ≠ [])
  let p4 : ℚ × List String × List String :=
    if sentences.isEmpty then (0, [], [])
    else
      let avg_length : ℚ := ((sentences.map wordsOf).sum : ℚ) / (sentences.length : ℚ)
      if 10 ≤ avg_length ∧ avg_length ≤ 25 then
        (0.1, ["Good sentence length for readability"], [])
      else if avg_length > 30 then (-0.1, [], ["Sentences may be too long"])
      else (0, [], [])
  let p5 : ℚ × List String × List String :=
    if containsAny (strUpper feat_content) ["TODO", "TBD", "FIXME"] then
      (-0.2, [], ["Contains incomplete sections"])
    else (0, [], [])
  { score := clamp01 (0.5 + p1.1 + p2.1 + p3.1 + p4.1 + p5.1),
    strengths := p1.2.1 ++ p2.2.1 ++ p3.2.1 ++ p4.2.1 ++ p5.2.1,
    weaknesses := p1.2.2 ++ p2.2.2 ++ p3.2.2 ++ p4.2.2 ++ p5.2.2 }

/-! ## Feature scoring and ranking (`evaluate_feature`, `rank_features`) -/

/-- Score for a feature specification candidate (`FeatScore` dataclass). -/
structure FeatScore where
  overall_score : ℚ
  structural_integrity : ℚ
  implementation_detail : ℚ
  language_specificity : ℚ
  technical_accuracy : ℚ
  clarity : ℚ
  feedback : String
  strengths : List String
  weaknesses : List String
  structural_validation : StructuralValidation
deriving DecidableEq, Repr

/-- Model of `FeatEvaluator.evaluate_feature` with the evaluator's fixed weights
(structural_integrity 0.30, implementation_detail 0.25,
language_specificity 0.20, technical_accuracy 0.15, clarity 0.10).
The unused `metadata` argument of the source is omitted. -/
def evaluate_feature (feat_content : String) (expected_structure : List String)
    (language : Option String) : FeatScore :=
  let structural_validation := validate_structure feat_content expected_structure
  let impl := evaluate_implementation_detail feat_content
  let lang := evaluate_language_specificity feat_content language
  let tech := evaluate_technical_accuracy feat_content
  let clar := evaluate_clarity feat_content
  let overall_score :=
    structural_validation.structure_score * 0.30 +
    impl.score * 0.25 + lang.score * 0.20 + tech.score * 0.15 + clar.score * 0.10
  let all_strengths := impl.strengths ++ lang.strengths ++ tech.strengths ++ clar.strengths
  let all_weaknesses := impl.weaknesses ++ lang.weaknesses ++ tech.weaknesses ++ clar.weaknesses
  let strengths :=
    if structural_validation.is_valid then
      "Preserves required section structure" :: all_strengths
    else all_strengths
  let weaknesses :=
    if structural_validation.is_valid then all_weaknesses
    else
      ("Missing required sections: " ++
        String.intercalate ", " structural_validation.missing_sections) :: all_weaknesses
  let feedback :=
    if overall_score ≥ 0.8 then
      "Excellent feature specification with comprehensive implementation guidance"
    else if overall_score ≥ 0.6 then "Good feature specification ready for implementation"
    else if overall_score ≥ 0.4 then "Adequate specification but needs more detail"
    else "Specification requires significant improvements"
  { overall_score,
    structural_integrity := structural_validation.structure_score,
    implementation_detail := impl.score,
    language_specificity := lang.score,
    technical_accuracy := tech.score,
    clarity := clar.score,
    feedback, strengths, weaknesses, structural_validation }

/-- A candidate dictionary as consumed by `rank_features` / `rank_designs`:
only the `output` / `content` keys matter to ranking (`Option` models key
presence, so a present-but-empty `output` is still the empty string). -/
structure Candidate where
  agent_name : String := ""
  output : Option String := none
  content : Option String := none
deriving DecidableEq, Repr

/-- Model of `candidate.get('output', candidate.get('content', ''))`. -/
def candidateContent (c : Candidate) : String :=
  match c.output with
  | some s => s
  | none => c.content.getD ""

/-- The sort key of `rank_features`: overall score, with 1.0 subtracted
for a structural violation. -/
def feat_sort_key (score : FeatScore) : ℚ :=
  score.overall_score + (if score.structural_validation.is_valid then 0 else -1)

/-- Model of `FeatEvaluator.rank_features`.  Candidates with empty content are
skipped; the final summary log line indexes `scored_features[0]`, which
raises `IndexError` when no candidate was scored — modelled by the
`Except` error case. -/
def rank_features (feature_candidates : List Candidate)
    (expected_structure : List String) (language : Option String) :
    Except String (List (Nat × FeatScore)) :=
  let scored_features :=
    feature_candidates.enum.filterMap (fun ic =>
      let content := candidateContent ic.2
      if content = "" then none
      else some (ic.1, evaluate_feature content expected_structure language))
  let sorted :=
    List.insertionSort
      (fun a b : Nat × FeatScore => feat_sort_key b.2 ≤ feat_sort_key a.2) scored_features
  match sorted with
  | [] => .error "IndexError: list index out of range"
  | _ => .ok sorted

/-! ## Design evaluator (`DesignEvaluator`) -/

/-- The `language_patterns` table of `DesignEvaluator.__init__`:
`(patterns, anti_patterns, best_practices)`. -/
def design_language_patterns (lang : String) :
    Option (List String × List String × List String) :=
  if lang = "go" then
    some (["interface", "struct", "goroutine", "channel", "package"],
          ["inheritance", "class", "exception"],
          ["composition", "small interfaces", "error handling", "concurrency"])
  else if lang = "python" then
    some (["class", "decorator", "context manager", "generator", "async/await"],
          ["global variables", "deep inheritance"],
          ["PEP 8", "type hints", "virtual environments", "docstrings"])
  else if lang = "rust" then
    some (["ownership", "borrowing", "trait", "enum", "match"],
          ["unsafe blocks without justification", "clone() overuse"],
          ["zero-cost abstractions", "memory safety", "error handling"])
  else if lang = "javascript" then
    some (["promise", "async/await", "closure", "prototype", "module"],
          ["global pollution", "callback hell", "var usage"],
          ["ES6+", "immutability", "functional programming", "testing"])
  else none

/-- Model of `DesignEvaluator.evaluate_language_idioms`.  Note that the
best-practices keywords are matched against the lower-cased content
exactly as in the source, so mixed-case entries such as "PEP 8" can never
match. -/
def evaluate_language_idioms (design_content : String) (language : Option String) :
    CritResult :=
  let content_lower := strLower design_content
  let patterns? := language.bind (fun l => design_language_patterns (strLower l))
  match patterns? with
  | none =>
    if containsAny content_lower ["best practice", "convention", "standard", "idiomatic"] then
      { score := clamp01 (0.5 + 0.2),
        strengths := ["Mentions best practices and conventions"], weaknesses := [] }
    else
      { score := clamp01 (0.5 - 0.1), strengths := [],
        weaknesses := ["No mention of language-specific best practices"] }
  | some (patterns, anti_patterns, best_practices) =>
    let language := language.getD ""
    let pattern_matches := countContained content_lower patterns
    let p1 : ℚ × List String × List String :=
      if (pattern_matches : ℚ) ≥ (patterns.length : ℚ) * 0.7 then
        (0.3, ["Strong use of " ++ language ++ " idioms and patterns"], [])
      else if pattern_matches > 0 then
        (0.1, ["Some use of " ++ language ++ " patterns"], [])
      else (-0.2, [], ["Limited use of " ++ language ++ "-specific patterns"])
    let anti_pattern_matches := countContained content_lower anti_patterns
    let p2 : ℚ × List String × List String :=
      if anti_pattern_matches > 0 then
        (-0.2, [], ["Contains " ++ language ++ " anti-patterns"])
      else (0.1, ["Avoids common " ++ language ++ " anti-patterns"], [])
    let practice_matches := countContained content_lower best_practices
    let p3 : ℚ × List String × List String :=
      if (practice_matches : ℚ) ≥ (best_practices.length : ℚ) * 0.5 then
        (0.2, ["Incorporates " ++ language ++ " best practices"], [])
      else if practice_matches > 0 then
        (0.1, ["Some " ++ language ++ " best practices mentioned"], [])
      else (-0.1, [], ["Limited discussion of " ++ language ++ " best practices"])
    { score := clamp01 (0.5 + p1.1 + p2.1 + p3.1),
      strengths := p1.2.1 ++ p2.2.1 ++ p3.2.1,
      weaknesses := p1.2.2 ++ p2.2.2 ++ p3.2.2 }

/-- Model of `DesignEvaluator.evaluate_architecture`. -/
def evaluate_architecture (design_content : String) : CritResult :=
  let content_lower := strLower design_content
  let component_mentions :=
    countContained content_lower ["component", "module", "service", "layer", "interface"]
  let p1 : ℚ × List String × List String :=
    if component_mentions ≥ 3 then (0.2, ["Well-defined architectural components"], [])
    else if component_mentions > 0 then (0.1, ["Some architectural structure"], [])
    else (-0.2, [], ["Unclear architectural structure"])
  let p2 : ℚ × List String × List String :=
    if containsAny content_lower ["scalability", "scale", "performance", "load", "concurrent"] then
      (0.2, ["Addresses scalability concerns"], [])
    else (-0.1, [], ["Limited scalability discussion"])
  let p3 : ℚ × List String × List String :=
    if containsAny content_lower ["data flow", "communication", "api", "interface"] then
      (0.15, ["Defines data flow and communication"], [])
    else (-0.15, [], ["Unclear data flow and communication"])
  let p4 : ℚ × List String × List String :=
    if containsAny content_lower ["error", "exception", "failure", "resilience"] then
      (0.15, ["Considers error handling and resilience"], [])
    else (-0.1, [], ["Limited error handling discussion"])
  let p5 : ℚ × List String × List String :=
    if containsAny content_lower ["separation", "concern", "responsibility", "single"] then
      (0.1, ["Good separation of concerns"], [])
    else (0, [], [])
  { score := clamp01 (0.5 + p1.1 + p2.1 + p3.1 + p4.1 + p5.1),
    strengths := p1.2.1 ++ p2.2.1 ++ p3.2.1 ++ p4.2.1 ++ p5.2.1,
    weaknesses := p1.2.2 ++ p2.2.2 ++ p3.2.2 ++ p4.2.2 ++ p5.2.2 }

/-- Model of `DesignEvaluator.evaluate_implementability`. -/
def evaluate_implementability (design_content : String) : CritResult :=
  let content_lower := strLower design_content
  let impl_mentions :=
    countContained content_lower ["implement", "code", "function", "method", "algorithm"]
  let p1 : ℚ × List String × List String :=
    if impl_mentions ≥ 3 then (0.3, ["Provides concrete implementation guidance"], [])
    else if impl_mentions > 0 then (0.1, ["Some implementation details"], [])
    else (-0.2, [], ["Lacks implementation details"])
  let p2 : ℚ × List String × List String :=
    if containsAny content_lower ["framework", "library", "database", "technology", "stack"] then
      (0.2, ["Specifies technology choices"], [])
    else (-0.1, [], ["Unclear technology stack"])
  let p3 : ℚ × List String × List String :=
    if containsAny content_lower ["simple", "complex", "easy", "difficult", "effort"] then
      (0.1, ["Considers implementation complexity"], [])
    else (0, [], [])
  let p4 : ℚ × List String × List String :=
    if containsAny content_lower ["step", "phase", "stage", "milestone"] then
      (0.2, ["Provides implementation roadmap"], [])
    else (-0.1, [], ["No clear implementation roadmap"])
  let p5 : ℚ × List String × List String :=
    if containsAny content_lower ["dependency", "requirement", "prerequisite"] then
      (0.1, ["Identifies dependencies and requirements"], [])
    else (0, [], [])
  { score := clamp01 (0.5 + p1.1 + p2.1 + p3.1 + p4.1 + p5.1),
    strengths := p1.2.1 ++ p2.2.1 ++ p3.2.1 ++ p4.2.1 ++ p5.2.1,
    weaknesses := p1.2.2 ++ p2.2.2 ++ p3.2.2 ++ p4.2.2 ++ p5.2.2 }

/-- Model of `DesignEvaluator.evaluate_completeness`.  The six keyword groups of the
`required_sections` checklist. -/
def design_required_sections : List (List String) :=
  [["overview", "introduction", "summary"],
   ["architecture", "design", "structure"],
   ["component", "module", "service"],
   ["data", "model", "schema", "database"],
   ["interface", "api", "contract"],
   ["deployment", "infrastructure", "environment"]]

/-- Model of `DesignEvaluator.evaluate_completeness`. -/
def evaluate_completeness (design_content : String) : CritResult :=
  let content_lower := strLower design_content
  let sections_found :=
    design_required_sections.countP (fun kws => containsAny content_lower kws)
  let completion_ratio : ℚ := (sections_found : ℚ) / (design_required_sections.length : ℚ)
  let p1 : List String × List String :=
    if completion_ratio ≥ 0.8 then (["Comprehensive coverage of all major areas"], [])
    else if completion_ratio ≥ 0.6 then (["Good coverage of most areas"], [])
    else if completion_ratio ≥ 0.4 then
      (["Basic coverage of key areas"], ["Missing some important architectural aspects"])
    else ([], ["Incomplete architectural coverage"])
  let word_count := wordsOf design_content.data
  let p2 : ℚ × List String × List String :=
    if word_count ≥ 1000 then (0.1, ["Detailed and thorough documentation"], [])
    else if word_count ≥ 500 then (0, ["Adequate level of detail"], [])
    else (-0.1, [], ["Lacks sufficient detail"])
  { score := clamp01 (completion_ratio + p2.1),
    strengths := p1.1 ++ p2.2.1,
    weaknesses := p1.2 ++ p2.2.2 }

/-- Model of `DesignEvaluator.evaluate_innovation`. -/
def evaluate_innovation (design_content : String) : CritResult :=
  let content_lower := strLower design_content
  let p1 : ℚ × List String × List String :=
    if containsAny content_lower ["innovative", "novel", "creative", "elegant", "unique"] then
      (0.2, ["Demonstrates innovative thinking"], [])
    else (0, [], [])
  let p2 : ℚ × List String × List String :=
    if containsAny content_lower ["modern", "contemporary", "latest", "current", "state-of-the-art"] then
      (0.1, ["Uses modern approaches"], [])
    else (0, [], [])
  let p3 : ℚ × List String × List String :=
    if containsAny content_lower ["optimize", "efficient", "performance", "fast", "lightweight"] then
      (0.2, ["Focuses on optimization and efficiency"], [])
    else (0, [], [])
  let p4 : ℚ × List String × List String :=
    if containsAny content_lower ["extensible", "flexible", "modular", "configurable", "pluggable"] then
      (0.2, ["Designed for extensibility"], [])
    else (0, [], [])
  let p5 : ℚ × List String × List String :=
    if containsAny content_lower ["complicated", "convoluted", "over-engineered", "complex"] then
      (-0.1, [], ["May be overly complex"])
    else (0, [], [])
  { score := clamp01 (0.5 + p1.1 + p2.1 + p3.1 + p4.1 + p5.1),
    strengths := p1.2.1 ++ p2.2.1 ++ p3.2.1 ++ p4.2.1 ++ p5.2.1,
    weaknesses := p1.2.2 ++ p2.2.2 ++ p3.2.2 ++ p4.2.2 ++ p5.2.2 }

/-- Model of `DesignEvaluator.evaluate_documentation`.  The sentence statistic uses
the raw `split('.')` parts (no stripping or filtering), and the incomplete
marker check is a case-sensitive count of `TODO` / `TBD` on the raw
content. -/
def evaluate_documentation (design_content : String) : CritResult :=
  let header_count := header_marker_count design_content
  let p1 : ℚ × List String × List String :=
    if header_count ≥ 5 then (0.2, ["Well-structured with clear sections"], [])
    else if header_count ≥ 3 then (0.1, ["Good document structure"], [])
    else (-0.2, [], ["Poor document structure"])
  let p2 : ℚ × List String × List String :=
    if containsAny (strLower design_content) ["diagram", "figure", "chart", "visual"] then
      (0.2, ["Includes visual documentation"], [])
    else (0, [], [])
  let p3 : ℚ × List String × List String :=
    if containsAny (strLower design_content) ["example", "use case", "scenario"] then
      (0.2, ["Provides examples and use cases"], [])
    else (0, [], [])
  let sentences := splitDots design_content
  let avg_sentence_length : ℚ :=
    ((sentences.map wordsOf).sum : ℚ) / (sentences.length : ℚ)
  let p4 : ℚ × List String × List String :=
    if 10 ≤ avg_sentence_length ∧ avg_sentence_length ≤ 25 then
      (0.1, ["Clear and readable writing style"], [])
    else if avg_sentence_length > 30 then
      (-0.1, [], ["Sentences may be too long and complex"])
    else (0, [], [])
  let p5 : ℚ × List String × List String :=
    if str_contains design_content "TODO" || str_contains design_content "TBD" then
      (-0.2, [], ["Contains incomplete sections"])
    else (0, [], [])
  { score := clamp01 (0.5 + p1.1 + p2.1 + p3.1 + p4.1 + p5.1),
    strengths := p1.2.1 ++ p2.2.1 ++ p3.2.1 ++ p4.2.1 ++ p5.2.1,
    weaknesses := p1.2.2 ++ p2.2.2 ++ p3.2.2 ++ p4.2.2 ++ p5.2.2 }

/-- Score for a design candidate (`DesignScore` dataclass). -/
structure DesignScore where
  overall_score : ℚ
  language_idioms : ℚ
  architecture : ℚ
  implementability : ℚ
  completeness : ℚ
  innovation : ℚ
  documentation : ℚ
  feedback : String
  strengths : List String
  weaknesses : List String
deriving DecidableEq, Repr

/-- Model of `DesignEvaluator.evaluate_design` with the default
`EvaluationCriteria` weights (language_idioms 0.25, architecture 0.25,
implementability 0.20, completeness 0.15, innovation 0.10,
documentation 0.05).  The unused `metadata` argument is omitted. -/
def evaluate_design (design_content : String) (language : Option String) : DesignScore :=
  let lang := evaluate_language_idioms design_content language
  let arch := evaluate_architecture design_content
  let impl := evaluate_implementability design_content
  let comp := evaluate_completeness design_content
  let innov := evaluate_innovation design_content
  let doc := evaluate_documentation design_content
  let overall_score :=
    lang.score * 0.25 + arch.score * 0.25 + impl.score * 0.20 +
    comp.score * 0.15 + innov.score * 0.10 + doc.score * 0.05
  let feedback :=
    if overall_score ≥ 0.8 then "Excellent design with strong architectural foundation"
    else if overall_score ≥ 0.6 then "Good design with solid implementation potential"
    else if overall_score ≥ 0.4 then "Adequate design but needs improvements"
    else "Design requires significant improvements"
  { overall_score,
    language_idioms := lang.score,
    architecture := arch.score,
    implementability := impl.score,
    completeness := comp.score,
    innovation := innov.score,
    documentation := doc.score,
    feedback,
    strengths := lang.strengths ++ arch.strengths ++ impl.strengths ++
      comp.strengths ++ innov.strengths ++ doc.strengths,
    weaknesses := lang.weaknesses ++ arch.weaknesses ++ impl.weaknesses ++
      comp.weaknesses ++ innov.weaknesses ++ doc.weaknesses }

/-- Model of `DesignEvaluator.rank_designs`.  Candidates with empty content are
skipped; the final summary log line indexes `scored_designs[0]`, which
raises `IndexError` when no candidate was scored. -/
def rank_designs (design_candidates : List Candidate) (language : Option String) :
    Except String (List (Nat × DesignScore)) :=
  let scored_designs :=
    design_candidates.enum.filterMap (fun ic =>
      let content := candidateContent ic.2
      if content = "" then none
      else some (ic.1, evaluate_design content language))
  let sorted :=
    List.insertionSort
      (fun a b : Nat × DesignScore => b.2.overall_score ≤ a.2.overall_score) scored_designs
  match sorted with
  | [] => .error "IndexError: list index out of range"
  | _ => .ok sorted

/-! ## Orchestration engine (`orchestration_engine.py`)

One task's interaction with the outside world (workspace creation,
process spawn, timeout, exit status, captured streams, files the worker
wrote, wall-clock time) is described by a `TaskEnv` record; the
filesystem is modelled as the list of existing task-scope directories,
each a pair `(engine temp directory, task_id)`.  Exceptions are `Except`
errors. -/

/-- Model of `AgentTask` dataclass: a task to be executed by an agent. -/
structure AgentTask where
  agent_name : String
  prompt : String
  task_id : String
  timeout : Nat := 300
  input_files : List (String × String) := []
  expected_outputs : List String := []
deriving DecidableEq, Repr

/-- The `metadata` dictionary attached to an `AgentResult`. -/
structure AgentMeta where
  return_code : Option Int := none
  workspace : Option String := none
deriving DecidableEq, Repr

/-- Model of `AgentResult` dataclass: result from an agent execution. -/
structure AgentResult where
  agent_name : String
  task_id : String
  success : Bool
  output : String
  error : Option String := none
  execution_time : ℚ := 0
  output_files : Option (List (String × String)) := none
  metadata : Option AgentMeta := none
deriving DecidableEq, Repr

/-- Behaviour of the external world for one task execution:
which steps fail, whether the wait times out, the process exit data and
the files the worker wrote (`none` content marks an undecodable file). -/
structure TaskEnv where
  workspace_error : Option String := none
  spawn_error : Option String := none
  times_out : Bool := false
  returncode : Int := 0
  stdout : Option String := none
  stderr : Option String := none
  written_files : List (String × Option String) := []
  elapsed : ℚ := 0
deriving DecidableEq, Repr

/-- Outcome of one `_execute_agent_task` call: the returned value or the
escaped exception, the filesystem afterwards, and whether the worker
process was killed. -/
structure ExecOutcome where
  result : Except String AgentResult
  fs : List (String × String)
  killed : Bool
deriving Repr

/-- The task's private scope directory (`Path(self.temp_dir) / task.task_id`). -/
def taskWorkspace (temp_dir : String) (task : AgentTask) : String :=
  temp_dir ++ "/" ++ task.task_id

/-- Model of `OrchestrationEngine._create_task_workspace`: creates the scope
directory (and writes input files and `prompt.txt` into it); any I/O
failure raises. -/
def create_task_workspace (temp_dir : String) (task : AgentTask) (env : TaskEnv)
    (fs : List (String × String)) : Except String (List (String × String)) :=
  match env.workspace_error with
  | some e => .error e
  | none => .ok (fs ++ [(temp_dir, task.task_id)])

/-- The failed `AgentResult` built by the `except` handler of
`_execute_agent_task`. -/
def exception_result (task : AgentTask) (e : String) (elapsed : ℚ)
    (workspace : String) : AgentResult :=
  { agent_name := task.agent_name, task_id := task.task_id, success := false,
    output := "", error := some e, execution_time := elapsed,
    output_files := none, metadata := some { workspace := some workspace } }

/-- The files read back from the scope after the process finished: every
file except `prompt.txt`, skipping undecodable ones.  (The input files
written at workspace creation are still present and are read back too.) -/
def collect_output_files (task : AgentTask) (env : TaskEnv) : List (String × String) :=
  ((task.input_files.map (fun p => (p.1, some p.2))) ++ env.written_files).filterMap
    (fun p => if p.1 = "prompt.txt" then none else p.2.map (fun c => (p.1, c)))

/-- Model of `OrchestrationEngine._execute_agent_task`.  Workspace creation runs
before the `try` block, so its failure escapes; everything inside the
`try` (spawn failure, timeout, stream handling) is caught by the
`except Exception` handler and returned as a failed result.  The timeout
branch kills the process and re-raises a `TimeoutError`, which the same
handler converts. -/
def execute_agent_task (temp_dir : String) (task : AgentTask) (env : TaskEnv)
    (fs : List (String × String)) : ExecOutcome :=
  match create_task_workspace temp_dir task env fs with
  | .error e => { result := .error e, fs := fs, killed := false }
  | .ok fs' =>
    match env.spawn_error with
    | some e =>
      { result := .ok (exception_result task e env.elapsed (taskWorkspace temp_dir task)),
        fs := fs', killed := false }
    | none =>
      if env.times_out then
        { result := .ok (exception_result task
            ("Task " ++ task.task_id ++ " timed out after " ++
              toString task.timeout ++ " seconds")
            env.elapsed (taskWorkspace temp_dir task)),
          fs := fs', killed := true }
      else
        let success := env.returncode = 0
        let output := env.stdout.getD ""
        let error0 := env.stderr
        let error :=
          if ¬success ∧ error0 = none then
            some ("Process exited with code " ++ toString env.returncode)
          else error0
        { result := .ok
            { agent_name := task.agent_name, task_id := task.task_id,
              success := success, output := output, error := error,
              execution_time := env.elapsed,
              output_files := some (collect_output_files task env),
              metadata := some { return_code := some env.returncode,
                                 workspace := some (taskWorkspace temp_dir task) } },
          fs := fs', killed := false }

/-- Model of `OrchestrationEngine.cleanup`: `shutil.rmtree(self.temp_dir)` removes
every scope directory under the engine's temp directory. -/
def engine_cleanup (temp_dir : String) (fs : List (String × String)) :
    List (String × String) :=
  fs.filter (fun d => d.1 != temp_dir)

/-- Model of `OrchestrationEngine.execute_parallel_tasks`:
`asyncio.gather(..., return_exceptions=True)` collects, in task order, one
value per task; the loop then converts every escaped exception into a
failed `AgentResult` (empty output, the exception text as error,
`execution_time` 0).  Each task runs against its own `TaskEnv`; the scope
directories are created in disjoint locations, so the filesystem effects
of sibling tasks are independent and are not threaded here. -/
def execute_parallel_tasks (temp_dir : String) (tasks : List AgentTask)
    (envs : List TaskEnv) : List AgentResult :=
  (tasks.zip envs).map (fun te =>
    match (execute_agent_task temp_dir te.1 te.2 []).result with
    | .ok r => r
    | .error e =>
      { agent_name := te.1.agent_name, task_id := te.1.task_id, success := false,
        output := "", error := some e, execution_time := 0,
        output_files := none, metadata := none })

/-- Model of `OrchestrationResult` dataclass. -/
structure OrchestrationResult where
  task_type : String
  success : Bool
  selected_result : Option AgentResult := none
  all_results : Option (List AgentResult) := none
  execution_time : ℚ := 0
deriving DecidableEq, Repr

/-- Python rendering of an optional string inside an f-string
(`{language}` prints `None` when absent). -/
def pyOptStr : Option String → String
  | some s => s
  | none => "None"

/-- Python truthiness of an optional string (absent or empty is falsy). -/
def pyTruthy : Option String → Bool
  | some s => s != ""
  | none => false

/-- The design task prompt of `orchestrate_design`. -/
def design_task_prompt (prompt : String) (language : Option String) : String :=
  "Design a " ++ (match language with | some l => l ++ " " | none => "") ++
  "system based on this description:\n\n" ++ prompt ++
  "\n\nProvide a comprehensive architectural design document with:\n" ++
  "1. System overview and architecture\n" ++
  "2. Core components and their responsibilities\n" ++
  "3. Data models and interfaces\n" ++
  "4. Technology stack and dependencies\n" ++
  "5. Implementation considerations\n\n" ++
  "Focus on creating a well-structured, implementable design that follows " ++
  pyOptStr language ++ " best practices if specified."

/-- Model of `OrchestrationEngine.orchestrate_design`.  `now` models
`int(time.time())` at task creation, `timeout_cfg` the configured
`execution_timeout_seconds`; the engine selects the first successful
result and succeeds iff one exists.  (Wall-clock `execution_time` is out
of the model and set to 0.) -/
def orchestrate_design (prompt : String) (agents : List String)
    (language : Option String) (envs : List TaskEnv) (temp_dir : String)
    (now timeout_cfg : Nat) : OrchestrationResult :=
  let tasks := agents.enum.map (fun ia =>
    { agent_name := ia.2,
      prompt := design_task_prompt prompt language,
      task_id := "design_" ++ toString ia.1 ++ "_" ++ toString now,
      timeout := timeout_cfg : AgentTask })
  let results := execute_parallel_tasks temp_dir tasks envs
  let selected_result := results.find? (fun r => r.success)
  { task_type := "design", success := selected_result.isSome,
    selected_result, all_results := some results }

/-- The feature task prompt of `orchestrate_feature`. -/
def feature_task_prompt (section_id : String) (language : Option String)
    (app_md_content : Option String) : String :=
  "Generate detailed implementation specifications for section " ++ section_id ++
  ".\n\n" ++ (if pyTruthy app_md_content then "Context from app.md:" else "") ++
  "\n" ++ (match app_md_content with | some s => if s != "" then s else "" | none => "") ++
  "\n\nCreate a comprehensive implementation specification that:\n" ++
  "1. Preserves exact subsection structure from the original section\n" ++
  "2. Provides detailed implementation guidance\n" ++
  "3. Includes specific " ++
  (match language with | some l => l ++ " " | none => "") ++
  "code patterns and approaches\n" ++
  "4. Specifies data structures, algorithms, and interfaces\n" ++
  "5. Addresses error handling and edge cases\n\n" ++
  "Ensure the output maintains structural integrity and follows " ++
  pyOptStr language ++ " best practices if specified."

/-- Model of `OrchestrationEngine.orchestrate_feature`. -/
def orchestrate_feature (section_id : String) (agents : List String)
    (language : Option String) (app_md_content : Option String)
    (envs : List TaskEnv) (temp_dir : String) (now timeout_cfg : Nat) :
    OrchestrationResult :=
  let tasks := agents.enum.map (fun ia =>
    { agent_name := ia.2,
      prompt := feature_task_prompt section_id language app_md_content,
      task_id := "feat_" ++ section_id ++ "_" ++ toString ia.1 ++ "_" ++ toString now,
      timeout := timeout_cfg,
      input_files :=
        match app_md_content with
        | some s => if s != "" then [("app.md", s)] else []
        | none => [] : AgentTask })
  let results := execute_parallel_tasks temp_dir tasks envs
  let selected_result := results.find? (fun r => r.success)
  { task_type := "feat", success := selected_result.isSome,
    selected_result, all_results := some results }

/-- The development task prompt of `orchestrate_development`. -/
def development_task_prompt (feat_specs : List String) (language : String)
    (feat_content : List (String × String)) : String :=
  "Generate working " ++ language ++ " code from these feature specifications:\n\n" ++
  "Feature specifications: " ++ String.intercalate ", " feat_specs ++ "\n\n" ++
  (if feat_content.isEmpty then "" else "Feature content provided in input files.") ++
  "\n\nCreate a complete, working codebase that:\n" ++
  "1. Implements all specified features with proper " ++ language ++ " idioms\n" ++
  "2. Includes comprehensive test suites\n" ++
  "3. Provides proper documentation and comments\n" ++
  "4. Uses appropriate project structure for " ++ language ++ "\n" ++
  "5. Includes build and deployment configurations\n\n" ++
  "Focus on creating production-ready, well-tested code that follows " ++
  language ++ " best practices."

/-- Model of `OrchestrationEngine.orchestrate_development` (`feat_content or {}` is
modelled by an already-defaulted list). -/
def orchestrate_development (feat_specs : List String) (agents : List String)
    (language : String) (feat_content : List (String × String))
    (envs : List TaskEnv) (temp_dir : String) (now timeout_cfg : Nat) :
    OrchestrationResult :=
  let tasks := agents.enum.map (fun ia =>
    { agent_name := ia.2,
      prompt := development_task_prompt feat_specs language feat_content,
      task_id := "dev_" ++ toString ia.1 ++ "_" ++ toString now,
      timeout := timeout_cfg,
      input_files := feat_content : AgentTask })
  let results := execute_parallel_tasks temp_dir tasks envs
  let selected_result := results.find? (fun r => r.success)
  { task_type := "dev", success := selected_result.isSome,
    selected_result, all_results := some results }

/-! ## Agent registry health bookkeeping (`AgentRegistry.record_agent_invocation`)

The `health_metrics` dictionary is modelled as an association list;
`datetime.now()` is modelled by an abstract tick `now`. -/

/-- Model of `AgentHealth` dataclass (health metrics of one agent). -/
structure AgentHealth where
  agent_name : String
  success_rate : ℚ
  avg_response_time : ℚ
  last_success : Option Nat
  last_failure : Option Nat
  total_invocations : Nat
  recent_failures : List String
deriving DecidableEq, Repr

/-- The fresh record inserted when an agent is first seen. -/
def fresh_health (agent_name : String) : AgentHealth :=
  { agent_name, success_rate := 0, avg_response_time := 0,
    last_success := none, last_failure := none,
    total_invocations := 0, recent_failures := [] }

/-- Dictionary lookup in the health-metrics map. -/
def lookup_health (m : List (String × AgentHealth)) (k : String) : Option AgentHealth :=
  (m.find? (fun p => p.1 == k)).map (fun p => p.2)

/-- Dictionary update (replace the binding, or append a new one). -/
def set_health : List (String × AgentHealth) → String → AgentHealth →
    List (String × AgentHealth)
  | [], k, v => [(k, v)]
  | (k', v') :: rest, k, v =>
    if k' == k then (k, v) :: rest else (k', v') :: set_health rest k v

/-- The in-place mutation performed by `record_agent_invocation` on one
`AgentHealth` record.  Note that the source increments
`total_invocations` first and then reads the incremented value back when
it reconstructs `current_successes`. -/
def update_health (health : AgentHealth) (success : Bool) (response_time : ℚ)
    (error_msg : Option String) (now : Nat) : AgentHealth :=
  let total_invocations := health.total_invocations + 1
  let avg_response_time :=
    if health.avg_response_time = 0 then response_time
    else health.avg_response_time * 0.8 + response_time * 0.2
  let last_success := if success then some now else health.last_success
  let last_failure := if success then health.last_failure else some now
  let recent_failures :=
    if success then health.recent_failures
    else
      match error_msg with
      | some e =>
        if e != "" then lastN 5 (health.recent_failures ++ [e])
        else health.recent_failures
      | none => health.recent_failures
  let current_successes := (total_invocations : ℚ) * health.success_rate
  let current_successes := current_successes + (if success then 1 else 0)
  { health with
    total_invocations, avg_response_time, last_success, last_failure,
    recent_failures,
    success_rate := current_successes / (total_invocations : ℚ) }

/-- Model of `AgentRegistry.record_agent_invocation`. -/
def record_agent_invocation (health_metrics : List (String × AgentHealth))
    (agent_name : String) (success : Bool) (response_time : ℚ)
    (error_msg : Option String) (now : Nat) : List (String × AgentHealth) :=
  let health := (lookup_health health_metrics agent_name).getD (fresh_health agent_name)
  set_health health_metrics agent_name
    (update_health health success response_time error_msg now)

/-! ## Feature workflow selection phase (`FeatWorkflow`)

`_evaluate_and_select_feature` filters the dispatched results to the
successful ones, raises when none succeeded, ranks the rest and selects
the top-ranked candidate.  `feat_selection_calls` models the collaborator
calls the surrounding `execute_feat_command` makes after the selection
phase (`Persistence.save_feature`, then `archive_candidates` for the
non-selected results); an exception escaping the selection phase is
caught by the command's top-level handler, so no collaborator call is
made on that path. -/

/-- The candidate dictionary built from one successful `AgentResult`. -/
def feat_candidate_of (r : AgentResult) : Candidate :=
  { agent_name := r.agent_name, output := some r.output, content := none }

/-- Model of `FeatWorkflow._evaluate_and_select_feature`. -/
def evaluate_and_select_feature (agent_results : List AgentResult)
    (expected_structure : List String) (language : Option String) :
    Except String (Candidate × List (Nat × FeatScore)) :=
  let candidates := (agent_results.filter (fun r => r.success)).map feat_candidate_of
  if candidates.isEmpty then
    .error "No successful feature specification candidates generated"
  else
    match rank_features candidates expected_structure language with
    | .error e => .error e
    | .ok evaluation_results =>
      match evaluation_results with
      | [] => .error "IndexError: list index out of range"
      | (best_index, _) :: _ =>
        match candidates[best_index]? with
        | some selected_feat => .ok (selected_feat, evaluation_results)
        | none => .error "IndexError: list index out of range"

/-- The persistence/archival collaborator calls `execute_feat_command`
makes after the selection phase, in order. -/
def feat_selection_calls (agent_results : List AgentResult)
    (expected_structure : List String) (language : Option String) : List String :=
  match evaluate_and_select_feature agent_results expected_structure language with
  | .error _ => []
  | .ok (selected_feat, _) =>
    let non_selected :=
      agent_results.filter (fun r => r.agent_name != selected_feat.agent_name)
    ["save_feature"] ++ (if non_selected.isEmpty then [] else ["archive_candidates"])

/-! ## Supporting lemmas -/

theorem clamp01_nonneg (x : ℚ) : 0 ≤ clamp01 x :=
  le_max_left 0 _

theorem clamp01_le_one (x : ℚ) : clamp01 x ≤ 1 :=
  max_le (by norm_num) (min_le_left _ _)

theorem le_clamp01 {c x : ℚ} (h0 : c ≤ 1) (h1 : c ≤ x) : c ≤ clamp01 x :=
  le_trans (le_min h0 h1) (le_max_right 0 _)

theorem evaluate_implementation_detail_bounds (c : String) :
    0 ≤ (evaluate_implementation_detail c).score ∧
      (evaluate_implementation_detail c).score ≤ 1 :=
  ⟨clamp01_nonneg _, clamp01_le_one _⟩

theorem evaluate_technical_accuracy_bounds (c : String) :
    0 ≤ (evaluate_technical_accuracy c).score ∧
      (evaluate_technical_accuracy c).score ≤ 1 :=
  ⟨clamp01_nonneg _, clamp01_le_one _⟩

theorem evaluate_clarity_bounds (c : String) :
    0 ≤ (evaluate_clarity c).score ∧ (evaluate_clarity c).score ≤ 1 :=
  ⟨clamp01_nonneg _, clamp01_le_one _⟩

/-- The language-specificity criterion never goes below 0.1: the
no-language path returns 0.5 or 0.7, the unknown-language path clamps
0.5 or 0.6, and the known-language path clamps a sum that is at least
0.5 − 0.2 − 0.2 = 0.1. -/
theorem evaluate_language_specificity_bounds (c : String) (l : Option String) :
    1/10 ≤ (evaluate_language_specificity c l).score ∧
      (evaluate_language_specificity c l).score ≤ 1 := by
  unfold evaluate_language_specificity
  cases l with
  | none =>
    dsimp only
    split_ifs <;> norm_num
  | some lang =>
    dsimp only
    rcases h : feat_language_patterns (strLower lang) with _ | ⟨pos, neg, prac⟩ <;>
      simp only [h] <;> split_ifs <;>
      constructor <;>
      first
        | exact clamp01_le_one _
        | apply le_clamp01 <;> norm_num

theorem validate_structure_score_bounds (c : String) (e : List String) :
    0 ≤ (validate_structure c e).structure_score ∧
      (validate_structure c e).structure_score ≤ 1 := by
  unfold validate_structure
  dsimp only
  split
  · dsimp only; norm_num
  · split
    · dsimp only; norm_num
    · dsimp only
      constructor
      · exact le_max_left 0 _
      · refine max_le (by norm_num) ?_
        have h1 : (0 : ℚ) ≤
            (((List.filter (fun s => !(extract_section_structure c).contains s)
                  (dedupFirst e)).length : ℚ) * 0.3 +
              ((List.filter (fun s => !e.contains s)
                  (dedupFirst (extract_section_structure c))).length : ℚ) * 0.1) /
              (e.length : ℚ) := by positivity
        linarith

/-- The weighted overall score of a feature evaluation always lies in
[1/50, 1] (the 0.2-weighted language criterion is at least 0.1, every
other criterion is at least 0; all criteria are at most 1). -/
theorem evaluate_feature_overall_bounds (c : String) (e : List String)
    (l : Option String) :
    1/50 ≤ (evaluate_feature c e l).overall_score ∧
      (evaluate_feature c e l).overall_score ≤ 1 := by
  have hs := validate_structure_score_bounds c e
  have hi := evaluate_implementation_detail_bounds c
  have hl := evaluate_language_specificity_bounds c l
  have ht := evaluate_technical_accuracy_bounds c
  have hc := evaluate_clarity_bounds c
  unfold evaluate_feature
  dsimp only
  constructor <;> nlinarith [hs.1, hs.2, hi.1, hi.2, hl.1, hl.2, ht.1, ht.2, hc.1, hc.2]

/-- The missing-sections list is the same expression in every branch of
`validate_structure`. -/
theorem validate_structure_missing (c : String) (e : List String) :
    (validate_structure c e).missing_sections =
      (dedupFirst e).filter (fun s => !((extract_section_structure c).contains s)) := by
  unfold validate_structure
  dsimp only
  split
  · rfl
  · split <;> rfl

/-- The extra-sections list is the same expression in every branch of
`validate_structure`. -/
theorem validate_structure_extra (c : String) (e : List String) :
    (validate_structure c e).extra_sections =
      (dedupFirst (extract_section_structure c)).filter (fun s => !(e.contains s)) := by
  unfold validate_structure
  dsimp only
  split
  · rfl
  · split <;> rfl

/-- C4 (amended): with a non-empty expected list the structural score is
1.0 minus the weighted penalty (0.3 per missing section, 0.1 per extra
section, missing/extra counted over deduplicated section names) divided
by the number of expected sections, floored at 0.0; with an empty
expected list it is 1.0. -/
theorem c4_structure_score_formula (content : String) (expected : List String) :
    (validate_structure content expected).structure_score =
      if expected.isEmpty then 1
      else
        max 0 (1 -
          (0.3 * ((validate_structure content expected).missing_sections.length : ℚ) +
            0.1 * ((validate_structure content expected).extra_sections.length : ℚ)) /
          (expected.length : ℚ)) := by
  rw [validate_structure_missing, validate_structure_extra]
  unfold validate_structure
  dsimp only
  by_cases h1 : expected.isEmpty
  · simp [h1]
  · simp only [h1, if_false, Bool.false_eq_true]
    split
    · next h2 =>
      obtain ⟨h2a, h2b⟩ := h2
      rw [List.isEmpty_iff] at h2a h2b
      rw [h2a, h2b]
      simp
    · dsimp only
      ring_nf

/-- The empty document has no section headers. -/
theorem extract_section_structure_empty : extract_section_structure "" = [] := by
  have h : "".data = ([] : List Char) := rfl
  unfold extract_section_structure
  rw [h]
  simp [scanHeaders]

/-- C4 (counterexample): on the empty document with two expected sections
the code computes max(0, 1 − (0.3·2 + 0.1·0)/2) = 0.7, not the claimed
undivided max(0, 1 − (0.3·2 + 0.1·0)) = 0.4. -/
theorem c4_counterexample :
    (validate_structure "" ["alpha", "beta"]).structure_score = 7/10 ∧
    (7/10 : ℚ) ≠ max 0 (1 - (0.3 * 2 + 0.1 * 0)) := by
  constructor
  · unfold validate_structure
    rw [extract_section_structure_empty]
    norm_num [dedupFirst, dedupAcc, List.filter]
  · rw [max_eq_right] <;> norm_num

/-- C6: scoring is deterministic — the evaluators are pure functions of
the artifact text and the fixed language / expected-structure arguments
(they read no mutable state), so byte-identical content yields the
identical `FeatScore` / `DesignScore`, including the per-criterion scores
and the strengths and weaknesses lists. -/
theorem c6_scorer_deterministic (content1 content2 : String)
    (expected : List String) (language : Option String)
    (h : content1 = content2) :
    evaluate_feature content1 expected language =
      evaluate_feature content2 expected language ∧
    evaluate_design content1 language = evaluate_design content2 language := by
  subst h
  exact ⟨rfl, rfl⟩

theorem c6_witness :
    evaluate_feature "# Overview\ngoroutine test" ["overview"] (some "go") =
      evaluate_feature "# Overview\ngoroutine test" ["overview"] (some "go") ∧
    evaluate_design "# Overview\ngoroutine test" (some "go") =
      evaluate_design "# Overview\ngoroutine test" (some "go") :=
  c6_scorer_deterministic _ _ ["overview"] (some "go") rfl

/-- C8: when none of the dispatched agent results succeeded, the
selection phase raises the no-successful-candidates domain error, and no
persistence or archival collaborator call is made. -/
theorem c8_no_successful_candidates (agent_results : List AgentResult)
    (expected_structure : List String) (language : Option String)
    (h : ∀ r ∈ agent_results, r.success = false) :
    evaluate_and_select_feature agent_results expected_structure language =
      .error "No successful feature specification candidates generated" ∧
    feat_selection_calls agent_results expected_structure language = [] := by
  have hfilter : agent_results.filter (fun r => r.success) = [] := by
    rw [List.filter_eq_nil_iff]
    intro a ha
    simp [h a ha]
  have h1 : evaluate_and_select_feature agent_results expected_structure language =
      .error "No successful feature specification candidates generated" := by
    unfold evaluate_and_select_feature
    rw [hfilter]
    simp
  refine ⟨h1, ?_⟩
  unfold feat_selection_calls
  rw [h1]

/-- A failed dispatch result used to instantiate `c8_no_successful_candidates`. -/
def c8_failed_result : AgentResult :=
  { agent_name := "gad", task_id := "feat_1_0_0", success := false,
    output := "", error := some "Process exited with code 1" }

theorem c8_witness :
    evaluate_and_select_feature [c8_failed_result] ["overview"] none =
      .error "No successful feature specification candidates generated" ∧
    feat_selection_calls [c8_failed_result] ["overview"] none = [] :=
  c8_no_successful_candidates [c8_failed_result] ["overview"] none (by decide)

/-- Looking up a key right after setting it returns the stored value. -/
theorem lookup_health_set_health (m : List (String × AgentHealth)) (k : String)
    (v : AgentHealth) : lookup_health (set_health m k v) k = some v := by
  induction m with
  | nil => simp [set_health, lookup_health]
  | cons p rest ih =>
    by_cases h : p.1 == k
    · simp [set_health, lookup_health, h]
    · simpa [set_health, lookup_health, h] using ih

/-- C9 (amended): `record_agent_invocation` stores, under the agent's
key, the update of its previous health record (a fresh all-zero record
when the agent was not yet tracked).  The update increments the
invocation count; it sets the average latency directly to the sample
when the stored average is 0 and otherwise applies the
old·0.8 + sample·0.2 moving average; and — because the source reads the
already-incremented total back — the success rate follows
new_rate = old_rate + (1 if success else 0)/(old_total + 1) rather than
successes/total. -/
theorem c9_health_update_characterisation (m : List (String × AgentHealth))
    (a : String) (success : Bool) (t : ℚ) (e : Option String) (now : Nat) :
    lookup_health (record_agent_invocation m a success t e now) a =
      some (update_health ((lookup_health m a).getD (fresh_health a)) success t e now) ∧
    ∀ h : AgentHealth,
      (update_health h success t e now).total_invocations = h.total_invocations + 1 ∧
      (update_health h success t e now).avg_response_time =
        (if h.avg_response_time = 0 then t
         else h.avg_response_time * 0.8 + t * 0.2) ∧
      (update_health h success t e now).success_rate =
        h.success_rate + (if success then 1 else 0) / ((h.total_invocations : ℚ) + 1) := by
  refine ⟨lookup_health_set_health m a _, fun h => ⟨rfl, rfl, ?_⟩⟩
  unfold update_health
  dsimp only
  have hne : ((h.total_invocations : ℚ) + 1) ≠ 0 := by positivity
  push_cast
  field_simp
  ring

/-- One successful invocation recorded for a fresh agent. -/
def c9_metrics_one : List (String × AgentHealth) :=
  record_agent_invocation [] "gad" true 1 none 0

/-- A failure recorded after the success. -/
def c9_metrics_two : List (String × AgentHealth) :=
  record_agent_invocation c9_metrics_one "gad" false 1 (some "exit 1") 1

/-- C9 (counterexample): after one success and one failure (each taking
1.0s) the stored success rate is 1, not the claimed 1/2 = successes/total;
and after the first invocation the stored average latency is the raw
sample 1, not the claimed EMA 0·0.8 + 1·0.2. -/
theorem c9_counterexample :
    (lookup_health c9_metrics_two "gad").map (fun h => h.success_rate) ≠
      some (1/2 : ℚ) ∧
    (lookup_health c9_metrics_one "gad").map (fun h => h.avg_response_time) ≠
      some ((0 : ℚ) * 0.8 + 1 * 0.2) := by
  have h1 : c9_metrics_one = [("gad",
      { agent_name := "gad", success_rate := 1, avg_response_time := 1,
        last_success := some 0, last_failure := none,
        total_invocations := 1, recent_failures := [] })] := by
    unfold c9_metrics_one record_agent_invocation
    simp [lookup_health, set_health, update_health, fresh_health]
  have h2 : (lookup_health c9_metrics_two "gad").map (fun h => h.success_rate) =
      some 1 := by
    unfold c9_metrics_two
    rw [h1]
    simp [record_agent_invocation, lookup_health, set_health, update_health, lastN]
  constructor
  · rw [h2]
    simp
  · rw [h1]
    simp [lookup_health]
    norm_num

/-- The ranked list produced by `rank_features` (empty when ranking
raised). -/
def ranked_features_of (cands : List Candidate) (e : List String)
    (l : Option String) : List (Nat × FeatScore) :=
  match rank_features cands e l with
  | .ok r => r
  | .error _ => []

/-- Any list sorted by the `rank_features` key, whose scores are all
genuine feature evaluations (overall score in [1/50, 1]), never places a
structurally invalid candidate before a valid one: an invalid key is at
most 0 while a valid key is at least 1/50. -/
theorem pairwise_validity_of_sorted (scored : List (Nat × FeatScore))
    (hmem : ∀ x ∈ scored, 1/50 ≤ x.2.overall_score ∧ x.2.overall_score ≤ 1) :
    List.Pairwise (fun a b : Nat × FeatScore =>
        b.2.structural_validation.is_valid = true →
          a.2.structural_validation.is_valid = true)
      (List.insertionSort
        (fun a b : Nat × FeatScore => feat_sort_key b.2 ≤ feat_sort_key a.2) scored) := by
  have hsorted := @List.sorted_insertionSort (Nat × FeatScore)
    (fun a b => feat_sort_key b.2 ≤ feat_sort_key a.2) inferInstance
    ⟨fun a b => le_total _ _⟩ ⟨fun a b c hab hbc => le_trans hbc hab⟩ scored
  have hperm := List.perm_insertionSort
    (fun a b : Nat × FeatScore => feat_sort_key b.2 ≤ feat_sort_key a.2) scored
  refine List.Pairwise.imp_of_mem ?_ hsorted
  intro a b ha hb hr hb_valid
  by_contra ha_valid
  have hA := hmem a (hperm.mem_iff.mp ha)
  have hB := hmem b (hperm.mem_iff.mp hb)
  have hka : feat_sort_key a.2 = a.2.overall_score + (-1) := by
    unfold feat_sort_key
    rw [if_neg]
    exact ha_valid
  have hkb : feat_sort_key b.2 = b.2.overall_score + 0 := by
    unfold feat_sort_key
    rw [if_pos]
    exact hb_valid
  rw [hka, hkb] at hr
  linarith [hA.1, hA.2, hB.1, hB.2]

/-- C5: in the output of `rank_features`, every structurally invalid
candidate is ranked below every valid one regardless of overall score
(no valid candidate ever appears after an invalid one): the −1.0 penalty
dominates because every overall score lies in [1/50, 1].  When ranking
raised (no scored candidate) the ranked list is empty and the property
is vacuous. -/
theorem c5_structural_override (cands : List Candidate) (e : List String)
    (lang : Option String) :
    List.Pairwise (fun a b : Nat × FeatScore =>
        b.2.structural_validation.is_valid = true →
          a.2.structural_validation.is_valid = true)
      (ranked_features_of cands e lang) := by
  have hmem : ∀ x ∈ (cands.enum.filterMap (fun ic =>
      let content := candidateContent ic.2
      if content = "" then none
      else some (ic.1, evaluate_feature content e lang))),
      1/50 ≤ x.2.overall_score ∧ x.2.overall_score ≤ 1 := by
    intro x hx
    obtain ⟨ic, _, hf⟩ := List.mem_filterMap.mp hx
    dsimp only at hf
    by_cases hc : candidateContent ic.2 = ""
    · simp [hc] at hf
    · rw [if_neg hc] at hf
      cases hf
      exact evaluate_feature_overall_bounds _ _ _
  have hp := pairwise_validity_of_sorted _ hmem
  unfold ranked_features_of rank_features
  dsimp only
  rcases hs : List.insertionSort
      (fun a b : Nat × FeatScore => feat_sort_key b.2 ≤ feat_sort_key a.2)
      (cands.enum.filterMap (fun ic =>
        let content := candidateContent ic.2
        if content = "" then none
        else some (ic.1, evaluate_feature content e lang))) with _ | ⟨x, xs⟩
  · rw [hs]
    exact List.Pairwise.nil
  · rw [hs]
    rw [hs] at hp
    exact hp

/-- Every member of a list appears in its enumeration (at some index). -/
theorem exists_mem_enumFrom {α : Type _} {c : α} :
    ∀ {l : List α}, c ∈ l → ∀ n : Nat, ∃ i, (i, c) ∈ List.enumFrom n l := by
  intro l
  induction l with
  | nil => intro h; cases h
  | cons x xs ih =>
    intro h n
    rcases List.mem_cons.mp h with rfl | hx
    · exact ⟨n, by simp [List.enumFrom]⟩
    · obtain ⟨i, hi⟩ := ih hx (n + 1)
      exact ⟨i, by simp [List.enumFrom, hi]⟩

/-- The scored list built by a ranking pass is empty exactly when every
candidate's content is empty. -/
theorem filterMap_enum_eq_nil_iff {β : Type _} (cands : List Candidate)
    (f : Nat × Candidate → Option β)
    (hf : ∀ ic, f ic = none ↔ candidateContent ic.2 = "") :
    cands.enum.filterMap f = [] ↔ ∀ c ∈ cands, candidateContent c = "" := by
  rw [List.filterMap_eq_nil_iff]
  constructor
  · intro h c hc
    obtain ⟨i, hi⟩ := exists_mem_enumFrom hc 0
    have hnone := h (i, c) (by simpa [List.enum] using hi)
    exact (hf (i, c)).mp hnone
  · intro h ic hic
    obtain ⟨i, c⟩ := ic
    have hx := List.mem_enum hic
    have hc : c ∈ cands := by
      rw [hx.2]
      exact List.getElem_mem _
    exact (hf (i, c)).mpr (h c hc)

/-- C7 (amended): a ranking pass returns normally exactly when at least
one candidate has non-empty content — candidates with empty or missing
content are skipped rather than scored, and when every candidate is
empty the final summary log line raises `IndexError`.  This holds for
`rank_features` and `rank_designs` alike. -/
theorem c7_empty_content_ranking (cands : List Candidate) (e : List String)
    (lang : Option String) :
    ((rank_features cands e lang).isOk = true ↔
      ∃ c ∈ cands, candidateContent c ≠ "") ∧
    ((rank_designs cands lang).isOk = true ↔
      ∃ c ∈ cands, candidateContent c ≠ "") := by
  constructor
  · unfold rank_features
    dsimp only
    have hperm := List.perm_insertionSort
      (fun a b : Nat × FeatScore => feat_sort_key b.2 ≤ feat_sort_key a.2)
      (cands.enum.filterMap (fun ic =>
        let content := candidateContent ic.2
        if content = "" then none
        else some (ic.1, evaluate_feature content e lang)))
    have hnil := filterMap_enum_eq_nil_iff cands
      (fun ic =>
        let content := candidateContent ic.2
        if content = "" then none
        else some (ic.1, evaluate_feature content e lang))
      (by
        intro ic
        dsimp only
        by_cases hc : candidateContent ic.2 = "" <;> simp [hc])
    rcases hs : List.insertionSort
        (fun a b : Nat × FeatScore => feat_sort_key b.2 ≤ feat_sort_key a.2)
        (cands.enum.filterMap (fun ic =>
          let content := candidateContent ic.2
          if content = "" then none
          else some (ic.1, evaluate_feature content e lang))) with _ | ⟨x, xs⟩
    · rw [hs]
      rw [hs] at hperm
      have hempty : ∀ c ∈ cands, candidateContent c = "" :=
        hnil.mp hperm.symm.eq_nil
      simp only [Except.isOk]
      constructor
      · intro h; cases h
      · rintro ⟨c, hc, hne⟩
        exact absurd (hempty c hc) hne
    · rw [hs]
      rw [hs] at hperm
      simp only [Except.isOk]
      constructor
      · intro _
        by_contra hno
        push_neg at hno
        rw [hnil.mpr hno] at hperm
        cases hperm.eq_nil
      · intro _; rfl
  · unfold rank_designs
    dsimp only
    have hperm := List.perm_insertionSort
      (fun a b : Nat × DesignScore => b.2.overall_score ≤ a.2.overall_score)
      (cands.enum.filterMap (fun ic =>
        let content := candidateContent ic.2
        if content = "" then none
        else some (ic.1, evaluate_design content lang)))
    have hnil := filterMap_enum_eq_nil_iff cands
      (fun ic =>
        let content := candidateContent ic.2
        if content = "" then none
        else some (ic.1, evaluate_design content lang))
      (by
        intro ic
        dsimp only
        by_cases hc : candidateContent ic.2 = "" <;> simp [hc])
    rcases hs : List.insertionSort
        (fun a b : Nat × DesignScore => b.2.overall_score ≤ a.2.overall_score)
        (cands.enum.filterMap (fun ic =>
          let content := candidateContent ic.2
          if content = "" then none
          else some (ic.1, evaluate_design content lang))) with _ | ⟨x, xs⟩
    · rw [hs]
      rw [hs] at hperm
      have hempty : ∀ c ∈ cands, candidateContent c = "" :=
        hnil.mp hperm.symm.eq_nil
      simp only [Except.isOk]
      constructor
      · intro h; cases h
      · rintro ⟨c, hc, hne⟩
        exact absurd (hempty c hc) hne
    · rw [hs]
      rw [hs] at hperm
      simp only [Except.isOk]
      constructor
      · intro _
        by_contra hno
        push_neg at hno
        rw [hnil.mpr hno] at hperm
        cases hperm.eq_nil
      · intro _; rfl

/-- C7 (counterexample): when every candidate has empty content (here a
single candidate whose `output` key holds the empty string), both
ranking passes crash with `IndexError` instead of completing normally. -/
theorem c7_counterexample :
    rank_features [{ output := some "" }] [] none =
      .error "IndexError: list index out of range" ∧
    rank_designs [{ output := some "" }] none =
      .error "IndexError: list index out of range" :=
  ⟨rfl, rfl⟩

/-- Whenever `_execute_agent_task` returns normally, the result carries
the task's identity, and a failed result always has its error text
populated (the stderr text, the synthesized exit-code message, or the
caught exception's text). -/
theorem execute_agent_task_ok_fields (temp_dir : String) (task : AgentTask)
    (env : TaskEnv) (fs : List (String × String)) :
    ∀ r, (execute_agent_task temp_dir task env fs).result = .ok r →
      r.agent_name = task.agent_name ∧ r.task_id = task.task_id ∧
        (r.success = false → r.error ≠ none) := by
  intro r hr
  unfold execute_agent_task create_task_workspace at hr
  rcases hws : env.workspace_error with _ | e
  · rw [hws] at hr
    dsimp only at hr
    rcases hsp : env.spawn_error with _ | e2
    · rw [hsp] at hr
      dsimp only at hr
      by_cases ht : env.times_out
      · rw [if_pos ht] at hr
        dsimp only at hr
        cases hr
        refine ⟨rfl, rfl, ?_⟩
        intro _
        simp [exception_result]
      · rw [if_neg ht] at hr
        dsimp only at hr
        cases hr
        refine ⟨rfl, rfl, ?_⟩
        intro hsucc
        dsimp only at hsucc ⊢
        rcases hse : env.stderr with _ | s
        · rw [if_pos]
          · simp
          · exact ⟨of_decide_eq_false hsucc, rfl⟩
        · rw [if_neg]
          · simp
          · intro hcon
            exact absurd hcon.2 (by simp)
    · rw [hsp] at hr
      dsimp only at hr
      cases hr
      refine ⟨rfl, rfl, ?_⟩
      intro _
      simp [exception_result]
  · rw [hws] at hr
    dsimp only at hr
    cases hr

/-- C1: the Dispatcher returns exactly one result per submitted task, in
submission order (result i carries task i's agent name and task id), and
every failure is represented as data: a returned result with
`success = false` always has error text populated.  The dispatcher
itself is a total function — exceptions of single tasks are converted by
the `return_exceptions=True` loop, never re-raised. -/
theorem c1_dispatcher_complete (temp_dir : String) (tasks : List AgentTask)
    (envs : List TaskEnv) (h : envs.length = tasks.length) :
    (execute_parallel_tasks temp_dir tasks envs).length = tasks.length ∧
    (∀ i : Nat,
      ((execute_parallel_tasks temp_dir tasks envs)[i]?.map
          (fun r => (r.agent_name, r.task_id))) =
        (tasks[i]?.map (fun t => (t.agent_name, t.task_id)))) ∧
    (∀ r ∈ execute_parallel_tasks temp_dir tasks envs,
      r.success = false → r.error ≠ none) := by
  refine ⟨?_, ?_, ?_⟩
  · unfold execute_parallel_tasks
    rw [List.length_map, List.length_zip, h, min_self]
  · intro i
    unfold execute_parallel_tasks
    rw [List.getElem?_map]
    by_cases hi : i < tasks.length
    · have hiz : i < (tasks.zip envs).length := by
        rw [List.length_zip, h, min_self]; exact hi
      rw [List.getElem?_eq_getElem hiz, List.getElem?_eq_getElem hi]
      simp only [Option.map_some']
      rw [List.getElem_zip]
      rcases hres : (execute_agent_task temp_dir tasks[i] envs[i] []).result with e | r
      · simp [hres]
      · have hfields := execute_agent_task_ok_fields temp_dir tasks[i] envs[i] [] r hres
        simp [hres, hfields.1, hfields.2.1]
    · have hiz : (tasks.zip envs).length ≤ i := by
        rw [List.length_zip, h, min_self]; omega
      rw [List.getElem?_eq_none hiz, List.getElem?_eq_none (by omega)]
      rfl
  · intro r hr hfail
    unfold execute_parallel_tasks at hr
    obtain ⟨te, _, hmap⟩ := List.mem_map.mp hr
    rcases hres : (execute_agent_task temp_dir te.1 te.2 []).result with e | r0
    · rw [hres] at hmap
      cases hmap
      simp
    · rw [hres] at hmap
      cases hmap
      exact (execute_agent_task_ok_fields temp_dir te.1 te.2 [] r0 hres).2.2 hfail

/-- A task and a batch of behaviours used to instantiate the dispatcher
theorem: one clean success, one timeout, one spawn failure. -/
def c1_tasks : List AgentTask :=
  [{ agent_name := "gad", prompt := "p0", task_id := "design_0_7" },
   { agent_name := "gsd", prompt := "p1", task_id := "design_1_7" },
   { agent_name := "rad", prompt := "p2", task_id := "design_2_7" }]

def c1_envs : List TaskEnv :=
  [{ stdout := some "ok" },
   { times_out := true },
   { spawn_error := some "FileNotFoundError: claude-code" }]

theorem c1_witness :
    (execute_parallel_tasks "/tmp/o" c1_tasks c1_envs).length = c1_tasks.length ∧
    (∀ i : Nat,
      ((execute_parallel_tasks "/tmp/o" c1_tasks c1_envs)[i]?.map
          (fun r => (r.agent_name, r.task_id))) =
        (c1_tasks[i]?.map (fun t => (t.agent_name, t.task_id)))) ∧
    (∀ r ∈ execute_parallel_tasks "/tmp/o" c1_tasks c1_envs,
      r.success = false → r.error ≠ none) :=
  c1_dispatcher_complete "/tmp/o" c1_tasks c1_envs rfl

/-- C2 (amended): once the workspace has been created, the sandbox never
raises — spawn failures and timeouts are caught and returned as failed
results; in the timeout case the worker process is killed and the error
text says the task timed out after its timeout. -/
theorem c2_sandbox_converts_failures (temp_dir : String) (task : AgentTask)
    (env : TaskEnv) (fs : List (String × String))
    (h : env.workspace_error = none) :
    (∃ r, (execute_agent_task temp_dir task env fs).result = .ok r) ∧
    (env.spawn_error = none → env.times_out = true →
      (execute_agent_task temp_dir task env fs).killed = true ∧
      ∃ r, (execute_agent_task temp_dir task env fs).result = .ok r ∧
        r.success = false ∧
        r.error = some ("Task " ++ task.task_id ++ " timed out after " ++
          toString task.timeout ++ " seconds")) := by
  unfold execute_agent_task create_task_workspace
  rw [h]
  dsimp only
  rcases hsp : env.spawn_error with _ | e
  · dsimp only
    by_cases ht : env.times_out
    · rw [if_pos ht]
      refine ⟨⟨_, rfl⟩, fun _ _ => ⟨rfl, _, rfl, rfl, rfl⟩⟩
    · rw [if_neg ht]
      exact ⟨⟨_, rfl⟩, fun _ hcon => absurd hcon ht⟩
  · dsimp only
    exact ⟨⟨_, rfl⟩, fun hcon _ => by cases hcon⟩

/-- The sandbox behaviour of a timing-out worker. -/
def c2_env_timeout : TaskEnv := { times_out := true, elapsed := 120 }

def c2_task : AgentTask :=
  { agent_name := "gad", prompt := "p", task_id := "feat_2_0_7", timeout := 120 }

theorem c2_witness :
    (∃ r, (execute_agent_task "/tmp/o" c2_task c2_env_timeout []).result = .ok r) ∧
    (c2_env_timeout.spawn_error = none → c2_env_timeout.times_out = true →
      (execute_agent_task "/tmp/o" c2_task c2_env_timeout []).killed = true ∧
      ∃ r, (execute_agent_task "/tmp/o" c2_task c2_env_timeout []).result = .ok r ∧
        r.success = false ∧
        r.error = some ("Task " ++ c2_task.task_id ++ " timed out after " ++
          toString c2_task.timeout ++ " seconds")) :=
  c2_sandbox_converts_failures "/tmp/o" c2_task c2_env_timeout [] rfl

/-- The sandbox behaviour of a failing workspace creation. -/
def c2_env_ws_fail : TaskEnv :=
  { workspace_error := some "OSError: No space left on device" }

/-- C2 (counterexample): an I/O failure inside `_create_task_workspace`
happens before the `try` block of `_execute_agent_task` and therefore
escapes to the caller instead of being converted into a failed result —
the sandbox does raise in that case. -/
theorem c2_counterexample :
    (execute_agent_task "/tmp/o" c2_task c2_env_ws_fail []).result =
      .error "OSError: No space left on device" := rfl

/-- C3 (amended): the sandbox does not remove its private scope
directory — after a call whose workspace creation succeeded, the scope
directory is still present in the filesystem; it disappears only when
the engine's `cleanup` removes the whole engine temp directory. -/
theorem c3_workspace_survives_call (temp_dir : String) (task : AgentTask)
    (env : TaskEnv) (fs : List (String × String))
    (h : env.workspace_error = none) :
    ((temp_dir, task.task_id) ∈ (execute_agent_task temp_dir task env fs).fs) ∧
    ((temp_dir, task.task_id) ∉
      engine_cleanup temp_dir (execute_agent_task temp_dir task env fs).fs) := by
  constructor
  · unfold execute_agent_task create_task_workspace
    rw [h]
    dsimp only
    rcases env.spawn_error with _ | e
    · dsimp only
      by_cases ht : env.times_out
      · rw [if_pos ht]
        simp
      · rw [if_neg ht]
        simp
    · dsimp only
      simp
  · intro hmem
    rw [engine_cleanup, List.mem_filter] at hmem
    simp at hmem

/-- A benign sandbox behaviour: the worker runs and exits 0. -/
def c3_env_ok : TaskEnv := { stdout := some "done" }

def c3_task : AgentTask :=
  { agent_name := "gad", prompt := "p", task_id := "design_0_9" }

/-- C3 (counterexample): after a successful sandbox call the private
scope directory still exists on disk — the engine removes it only at
`cleanup`. -/
theorem c3_counterexample :
    ("/tmp/o", "design_0_9") ∈
      (execute_agent_task "/tmp/o" c3_task c3_env_ok []).fs := by decide

theorem c3_witness :
    (("/tmp/o", c3_task.task_id) ∈
      (execute_agent_task "/tmp/o" c3_task c3_env_ok []).fs) ∧
    (("/tmp/o", c3_task.task_id) ∉
      engine_cleanup "/tmp/o" (execute_agent_task "/tmp/o" c3_task c3_env_ok []).fs) :=
  c3_workspace_survives_call "/tmp/o" c3_task c3_env_ok [] rfl

/-- The element `List.find?` returns is the first one satisfying the
predicate: everything at an earlier index fails it. -/
theorem find?_some_first {α : Type _} (p : α → Bool) :
    ∀ (l : List α) (r : α), l.find? p = some r →
      ∃ i, ∃ hi : i < l.length, l.get ⟨i, hi⟩ = r ∧
        ∀ j (hj : j < l.length), j < i → p (l.get ⟨j, hj⟩) = false := by
  intro l
  induction l with
  | nil => intro r hr; cases hr
  | cons a t ih =>
    intro r hr
    rw [List.find?_cons] at hr
    cases hpa : p a with
    | true =>
      rw [hpa] at hr
      cases hr
      exact ⟨0, by simp, rfl, fun j hj hlt => absurd hlt (by omega)⟩
    | false =>
      rw [hpa] at hr
      obtain ⟨i, hi, hget, hmin⟩ := ih r hr
      refine ⟨i + 1, by simpa using hi, by simpa using hget, ?_⟩
      intro j hj hlt
      cases j with
      | zero => simpa using hpa
      | succ j' =>
        have hj' : j' < t.length := by simp at hj; omega
        have := hmin j' hj' (by omega)
        simpa using this

/-- The selection contract of the three `orchestrate_*` entry points:
the result's success flag is set exactly when some task succeeded, the
selected result (when present) is a successful result and everything
before it in submission order failed, and no result is selected exactly
when all failed. -/
def engine_selects_first_success (o : OrchestrationResult) : Prop :=
  (o.success = true ↔ ∃ r ∈ o.all_results.getD [], r.success = true) ∧
  (∀ r, o.selected_result = some r → r.success = true ∧
    ∃ i, ∃ hi : i < (o.all_results.getD []).length,
      (o.all_results.getD []).get ⟨i, hi⟩ = r ∧
      ∀ j (hj : j < (o.all_results.getD []).length), j < i →
        ((o.all_results.getD []).get ⟨j, hj⟩).success = false) ∧
  (o.selected_result = none → ∀ r ∈ o.all_results.getD [], r.success = false)

/-- Any orchestration result assembled the way the engine assembles one
(first-success selection over the dispatched results) satisfies the
selection contract. -/
theorem selection_of_results (tt : String) (t : ℚ) (results : List AgentResult) :
    engine_selects_first_success
      { task_type := tt,
        success := (results.find? (fun r => r.success)).isSome,
        selected_result := results.find? (fun r => r.success),
        all_results := some results,
        execution_time := t } := by
  unfold engine_selects_first_success
  dsimp only
  refine ⟨?_, ?_, ?_⟩
  · simp [List.find?_isSome]
  · intro r hr
    have hp := List.find?_some hr
    obtain ⟨i, hi, hget, hmin⟩ := find?_some_first _ results r hr
    exact ⟨hp, i, hi, hget, hmin⟩
  · intro hnone r hr
    simpa using List.find?_eq_none.mp hnone r hr

/-- C10: all three orchestration entry points select the first successful
result in submission order (no score-based selection happens in the
engine), and succeed iff at least one task succeeded. -/
theorem c10_engine_first_success (prompt section_id dev_language : String)
    (agents : List String) (language app_md : Option String)
    (feat_specs : List String) (feat_content : List (String × String))
    (envs : List TaskEnv) (temp_dir : String) (now timeout_cfg : Nat) :
    engine_selects_first_success
      (orchestrate_design prompt agents language envs temp_dir now timeout_cfg) ∧
    engine_selects_first_success
      (orchestrate_feature section_id agents language app_md envs temp_dir
        now timeout_cfg) ∧
    engine_selects_first_success
      (orchestrate_development feat_specs agents dev_language feat_content envs
        temp_dir now timeout_cfg) := by
  refine ⟨?_, ?_, ?_⟩
  · unfold orchestrate_design
    exact selection_of_results _ _ _
  · unfold orchestrate_feature
    exact selection_of_results _ _ _
  · unfold orchestrate_development
    exact selection_of_results _ _ _

def c10_envs : List TaskEnv :=
  [{ returncode := 1, stderr := some "boom" }, { stdout := some "ok" }]

theorem c10_witness :
    engine_selects_first_success
      (orchestrate_design "a timer" ["gad", "gsd"] (some "go") c10_envs "/tmp/o" 7 300) ∧
    engine_selects_first_success
      (orchestrate_feature "2" ["gad", "gsd"] (some "go") (some "# app")
        c10_envs "/tmp/o" 7 300) ∧
    engine_selects_first_success
      (orchestrate_development ["2"] ["gad", "gsd"] "go" [("feat_2.md", "spec")]
        c10_envs "/tmp/o" 7 300) :=
  c10_engine_first_success "a timer" "2" "go" ["gad", "gsd"] (some "go")
    (some "# app") ["2"] [("feat_2.md", "spec")] c10_envs "/tmp/o" 7 300
